import Mathlib

/-!
Verification of the `tomasrene/transcripcion` video-transcription pipeline
(`src/main.py`) against its natural-language specification.

The Python source is shallowly embedded: enum classes become inductive
types, the `VideoTranscriptor` constructor becomes a fallible builder
returning `Except`, and the filesystem-manipulating methods become pure
functions over explicit directory states and event traces.
-/

namespace Transcripcion

/-! ## Enumerations (`src/main.py` lines 13-54)

Each Python `Enum` class is mirrored by an inductive type together with
`value` (the `.value` attribute) and `ofValue` (the `Enum(x)` constructor
call, which raises `ValueError` on an out-of-domain value, modelled as
`Option`). -/

inductive SourceType where
  | youtube
  | drive
  | local
deriving DecidableEq, Repr

def SourceType.value : SourceType → String
  | .youtube => "youtube"
  | .drive => "drive"
  | .local => "local"

def SourceType.ofValue (s : String) : Option SourceType :=
  if s = "youtube" then some .youtube
  else if s = "drive" then some .drive
  else if s = "local" then some .local
  else none

inductive SourceFormat where
  | one
  | multiple
deriving DecidableEq, Repr

def SourceFormat.value : SourceFormat → String
  | .one => "one"
  | .multiple => "multiple"

def SourceFormat.ofValue (s : String) : Option SourceFormat :=
  if s = "one" then some .one
  else if s = "multiple" then some .multiple
  else none

/-- Domain of `AudioFileType` (`mp3`, `wav`). -/
def audioFileTypeDomain : List String := ["mp3", "wav"]

/-- Domain of `TranscriptionModel` (`whisper`). -/
def transcriptionModelDomain : List String := ["whisper"]

/-- Domain of `TranscriptionQuality` (`base`, `medium`, `large`). -/
def transcriptionQualityDomain : List String := ["base", "medium", "large"]

/-- Domain of `OutputFormat` (`txt`, `doc`). -/
def outputFormatDomain : List String := ["txt", "doc"]

/-! ## The `VideoTranscriptor` constructor (`src/main.py` lines 57-84)

`__init__` calls `SourceType(source_type)` and `SourceFormat(source_format)`
(which raise `ValueError` for out-of-domain values) but stores
`audio_file_type`, `transcription_model`, `transcription_quality` and
`output_format` exactly as passed, with no validation.  We model the four
unvalidated arguments as the raw values the caller passed (their `.value`
strings), since nothing in `__init__` inspects them. -/

structure VideoTranscriptor where
  source_id : Option String
  source_type : SourceType
  source_format : SourceFormat
  intermediate_folder : String
  audio_file_type : String
  keep_intermediate_files : Bool
  transcription_model : String
  transcription_quality : String
  output_folder : String
  output_format : String
deriving DecidableEq, Repr

/-- Model of `VideoTranscriptor.__init__`.  `Except.error` is a raised
`ValueError`; `Except.ok` is a successfully constructed object. -/
def VideoTranscriptor.init (source_type source_format : String)
    (source_id : Option String := none)
    (intermediate_folder : String := "temp")
    (audio_file_type : String := "mp3")
    (keep_intermediate_files : Bool := true)
    (transcription_model : String := "whisper")
    (transcription_quality : String := "base")
    (output_folder : String := "output")
    (output_format : String := "txt") :
    Except String VideoTranscriptor :=
  match SourceType.ofValue source_type with
  | none => .error ("ValueError: " ++ source_type ++ " is not a valid SourceType")
  | some st =>
    match SourceFormat.ofValue source_format with
    | none => .error ("ValueError: " ++ source_format ++ " is not a valid SourceFormat")
    | some sf =>
      .ok { source_id := source_id
            source_type := st
            source_format := sf
            intermediate_folder := intermediate_folder
            audio_file_type := audio_file_type
            keep_intermediate_files := keep_intermediate_files
            transcription_model := transcription_model
            transcription_quality := transcription_quality
            output_folder := output_folder
            output_format := output_format }

/-! ## Chunking (`src/main.py` line 328)

`audio_chunks = [audio[i:i + 1200000] for i in range(0, len(audio), 1200000)]`

`rangeStep` models Python's `range(start, stop, step)` for a positive
step (Python raises `ValueError` on `step == 0`; we return `[]` there,
a case never reached since the step used is the literal `1200000`).
`sliceLen` is the length of the Python slice `audio[i:i+n]` of a
sequence of length `L`. -/

def rangeStep (start stop step : Nat) : List Nat :=
  if start < stop then
    if step = 0 then []
    else start :: rangeStep (start + step) stop step
  else []
termination_by stop - start
decreasing_by omega

/-- Length of the Python slice `xs[i : i + n]` of a sequence of length `L`. -/
def sliceLen (L i n : Nat) : Nat :=
  min (i + n) L - min i L

/-- The milliseconds length of each chunk produced at `src/main.py:328`
for an audio segment of length `L` milliseconds. -/
def chunkLengths (L : Nat) : List Nat :=
  (rangeStep 0 L 1200000).map (fun i => sliceLen L i 1200000)

/-! ## Python exceptions

The exception categories `process_local_files`, `transcribe_audio` and
`transcribe_file` distinguish in their `except` clauses. -/

inductive PyExc where
  | fileNotFound
  | isADirectory
  | permission
  | other (msg : String)
deriving DecidableEq, Repr

/-- The exception classes swallowed (logged, not re-raised) by the dedicated
`except` clauses of `process_local_files` (`src/main.py` lines 257-262);
the final `except Exception` clause (lines 263-265) re-raises. -/
def swallowedByLocalHandlers : PyExc → Bool
  | .fileNotFound => true
  | .isADirectory => true
  | .permission => true
  | .other _ => false

/-! ## Acquisition (`process_source`, `process_local_files`;
`src/main.py` lines 86-110 and 235-265)

The filesystem and the network are abstracted into a world record holding
the outcomes of the external probes and calls the code makes.  The return
value is the exception the method propagates to its caller, if any
(`none` = the method returns normally). -/

structure LocalWorld where
  /-- `os.path.exists('./input/{source_id}')` (line 241) -/
  pathExists : Bool
  /-- `os.path.isfile(path)` (line 244) -/
  pathIsFile : Bool
  /-- `os.listdir(path)` is empty (line 247) -/
  listEmpty : Bool
  /-- outcome of the walk-and-extract loop (lines 252-255): normal
  completion, or the exception it raises -/
  walkResult : Except PyExc Unit

/-- Model of `process_local_files` (`src/main.py` lines 235-265): the
exception it propagates, if any.  A missing path, a non-directory path and
an empty directory each log and `return`; an exception from the loop is
caught by the handler for its class: `FileNotFoundError`,
`IsADirectoryError` and `PermissionError` are logged and swallowed, any
other exception is logged and re-raised. -/
def process_local_files_m (w : LocalWorld) : Option PyExc :=
  if !w.pathExists then none
  else if w.pathIsFile then none
  else if w.listEmpty then none
  else
    match w.walkResult with
    | .ok _ => none
    | .error e => if swallowedByLocalHandlers e then none else some e

structure AcqWorld where
  localWorld : LocalWorld
  /-- outcome of the drive/youtube branch body (authentication, listing,
  download); its helpers log and re-raise every exception -/
  remoteResult : Except PyExc Unit

/-- Model of `process_source` (`src/main.py` lines 86-110): the exception it
propagates, if any.  Its `except Exception` clause logs and re-raises, so
whatever escapes the selected branch escapes `process_source`. -/
def process_source_exc (stype : SourceType) (w : AcqWorld) : Option PyExc :=
  match stype with
  | .local => process_local_files_m w.localWorld
  | _ =>
    match w.remoteResult with
    | .ok _ => none
    | .error e => some e

/-- Acquisition world in which the input path is a valid non-empty
directory but the walk-and-extract loop raises `PermissionError`. -/
def permDuringWalkWorld : AcqWorld :=
  { localWorld := { pathExists := true, pathIsFile := false, listEmpty := false,
                    walkResult := .error .permission }
    remoteResult := .ok () }

/-! ## Local directory walk (`src/main.py` lines 252-255) -/

/-- A directory tree as `os.walk` traverses it: the files of each
directory plus its subdirectories. -/
inductive DirTree where
  | node (files : List String) (subdirs : List DirTree)

mutual
/-- All file names yielded by `os.walk` over the tree. -/
def walkFiles : DirTree → List String
  | .node files subdirs => files ++ walkFilesList subdirs

def walkFilesList : List DirTree → List String
  | [] => []
  | t :: ts => walkFiles t ++ walkFilesList ts
end

/-- Python's `str.endswith` for a single candidate: the candidate's
characters are a suffix of the string's characters. -/
def strEndsWith (s suffixStr : String) : Bool :=
  suffixStr.data.isSuffixOf s.data

/-- `file.endswith(('.mp4', '.avi', '.mov'))` (line 254). -/
def hasVideoExt (f : String) : Bool :=
  strEndsWith f ".mp4" || strEndsWith f ".avi" || strEndsWith f ".mov"

/-- The files the loop at lines 252-255 passes to `extract_local_audio`. -/
def selectedVideoFiles (t : DirTree) : List String :=
  (walkFiles t).filter hasVideoExt

/-! ## Cleanup (`clean_up`, `src/main.py` lines 348-354) -/

/-- Model of `clean_up`: the files remaining in the intermediate directory.
When `keep_intermediate_files` is false the method unlinks each file the
directory listing yields. -/
def clean_up (keep_intermediate_files : Bool) (files : List String) : List String :=
  if !keep_intermediate_files then
    files.foldl (fun remaining f => remaining.erase f) files
  else files

/-! ## Transcription of one file (`transcribe_file`,
`src/main.py` lines 314-346)

The chunk loop (lines 331-337) is modelled as the trace of filesystem
events it performs: `chunk.export` creates the chunk's temporary file,
`f.write` appends to the transcript, `os.remove` deletes the temporary
file.  The speech model is abstracted into the list of texts it returns
for the successive chunks. -/

inductive FsEv where
  | create (name : String)
  | append (text : String)
  | removeFile (name : String)

/-- `f'./{self.intermediate_folder}/{file_name}-chunk{i+1}'` (line 332). -/
def tempChunkName (folder stem : String) (i : Nat) : String :=
  "./" ++ folder ++ "/" ++ stem ++ "-chunk" ++ toString (i + 1)

/-- The events of one iteration of the chunk loop (lines 332-337):
export the chunk, write its text, write the newline, remove the chunk. -/
def chunkEvents (folder stem : String) (i : Nat) (text : String) : List FsEv :=
  [.create (tempChunkName folder stem i), .append text, .append "\n",
   .removeFile (tempChunkName folder stem i)]

/-- The events of the whole chunk loop, starting at chunk index `i`
(models `for i, chunk in enumerate(audio_chunks)`). -/
def transcribeEventsGo (folder stem : String) : Nat → List String → List FsEv
  | _, [] => []
  | i, t :: ts => chunkEvents folder stem i t ++ transcribeEventsGo folder stem (i + 1) ts

/-- The full event trace of `transcribe_file`'s chunk loop when the model
returns `texts` for the successive chunks. -/
def transcribeEvents (folder stem : String) (texts : List String) : List FsEv :=
  transcribeEventsGo folder stem 0 texts

/-- Effect of one event on the set of live temporary chunk files. -/
def stepEv (live : List String) : FsEv → List String
  | .create n => live ++ [n]
  | .append _ => live
  | .removeFile n => live.erase n

/-- Live temporary chunk files after a trace, starting from `live`. -/
def runEvs (live : List String) (evs : List FsEv) : List String :=
  evs.foldl stepEv live

/-- Every intermediate live-file set along a trace (including the initial
and the final one). -/
def liveStates (live : List String) : List FsEv → List (List String)
  | [] => [live]
  | ev :: evs => live :: liveStates (stepEv live ev) evs

/-- Effect of one event on the transcript file's contents. -/
def appendEv (s : String) : FsEv → String
  | .append t => s ++ t
  | _ => s

/-- The transcript text a trace writes (the file is opened with mode
`'w'`, so it starts empty). -/
def writtenText (evs : List FsEv) : String :=
  evs.foldl appendEv ""

/-- Model of `Path.stem` of a file name: the name without its final
suffix; a name has a suffix only when its last dot sits strictly inside
the name (neither first nor last character). -/
def pyStem (s : String) : String :=
  let cs := s.data
  let dotIdxs := (List.range cs.length).filter (fun i => cs.getD i ' ' = '.')
  match dotIdxs.getLast? with
  | none => s
  | some i => if 0 < i ∧ i < cs.length - 1 then ⟨cs.take i⟩ else s

/-- `f'{file_name}.{self.output_format.value}'` (line 330). -/
def outputFileName (stem ofmt : String) : String :=
  stem ++ "." ++ ofmt

/-- Replace the contents of `name` in the output directory (opening with
mode `'w'` truncates whatever was there). -/
def setFile (dir : List (String × String)) (name content : String) :
    List (String × String) :=
  dir.filter (fun p => p.1 ≠ name) ++ [(name, content)]

/-- Contents of `name` in the output directory. -/
def lookupFile (dir : List (String × String)) (name : String) : Option String :=
  (dir.find? (fun p => p.1 = name)).map (fun p => p.2)

/-- Effect of `transcribe_file` on the output directory: the transcript of
`file` is written from scratch into `<stem>.<output_format>`.
`recognize file` is the list of texts the speech model returns for the
successive chunks of `file`. -/
def transcribe_file_m (folder ofmt : String) (recognize : String → List String)
    (outputs : List (String × String)) (file : String) : List (String × String) :=
  setFile outputs (outputFileName (pyStem file) ofmt)
    (writtenText (transcribeEvents folder (pyStem file) (recognize file)))

/-! ## The pipeline phases (`transcribe_audio`, `clean_up`, `process`;
`src/main.py` lines 285-312, 348-354, 356-364) -/

structure PipeState where
  /-- file names in the intermediate directory -/
  intermediate : List String
  /-- the output directory: file name, contents -/
  outputs : List (String × String)
  /-- the `whisper.load_model` calls made (their quality argument) -/
  loadedModels : List String
  /-- the `logging` messages emitted -/
  log : List String

/-- Model of `transcribe_audio` (`src/main.py` lines 285-312) on the
normal path (the abstract recognizer does not raise): when the
intermediate directory is empty it logs an error and returns before
loading any model; otherwise it loads the model and transcribes every
file of the intermediate directory. -/
def transcribe_audio_m (folder ofmt quality : String)
    (recognize : String → List String) (st : PipeState) : Except PyExc PipeState :=
  if st.intermediate.isEmpty then
    .ok { st with log := st.log ++ ["No files found in the intermediate folder."] }
  else
    .ok { st with
          loadedModels := st.loadedModels ++ [quality]
          outputs := st.intermediate.foldl
            (fun acc f => transcribe_file_m folder ofmt recognize acc f) st.outputs
          log := st.log ++ ["Transcribing audio...", "Audio transcription completed."] }

/-- Model of `process_source` as a pipeline phase: `acquired` is the list
of audio files acquisition deposits in the intermediate directory, or the
exception it raises (which the method logs and re-raises). -/
def process_source_phase (acquired : Except PyExc (List String)) (st : PipeState) :
    Except PyExc PipeState :=
  match acquired with
  | .error e => .error e
  | .ok files =>
    .ok { st with
          intermediate := st.intermediate ++ files
          log := st.log ++ ["Processing source...", "Source processing completed."] }

/-- Model of `clean_up` as a pipeline phase. -/
def clean_up_phase (keep : Bool) (st : PipeState) : PipeState :=
  { st with intermediate := clean_up keep st.intermediate }

/-- Model of `process` (`src/main.py` lines 356-364): source acquisition,
then transcription, then cleanup. -/
def process_m (acquired : Except PyExc (List String)) (folder ofmt quality : String)
    (recognize : String → List String) (keep : Bool) (st : PipeState) :
    Except PyExc PipeState :=
  let st0 := { st with log := st.log ++ ["Process started."] }
  match process_source_phase acquired st0 with
  | .error e => .error e
  | .ok st1 =>
    match transcribe_audio_m folder ofmt quality recognize st1 with
    | .error e => .error e
    | .ok st2 =>
      let st3 := clean_up_phase keep st2
      .ok { st3 with log := st3.log ++ ["Process completed."] }

theorem rangeStep_nil (start stop step : Nat) (h : ¬ start < stop) :
    rangeStep start stop step = [] := by
  rw [rangeStep]; simp [h]

theorem rangeStep_zero_step (start stop : Nat) :
    rangeStep start stop 0 = [] := by
  rw [rangeStep]; simp

theorem rangeStep_cons (start stop step : Nat) (h : start < stop) (hz : step ≠ 0) :
    rangeStep start stop step = start :: rangeStep (start + step) stop step := by
  rw [rangeStep]; simp [h, hz]

theorem rangeStep_shift_aux (n : Nat) : ∀ start stop step d, stop - start ≤ n →
    rangeStep (start + d) (stop + d) step = (rangeStep start stop step).map (· + d) := by
  induction n with
  | zero =>
    intro start stop step d h
    rw [rangeStep_nil start stop step (by omega),
      rangeStep_nil (start + d) (stop + d) step (by omega)]
    rfl
  | succ n ih =>
    intro start stop step d h
    by_cases hlt : start < stop
    · by_cases hz : step = 0
      · subst hz
        rw [rangeStep_zero_step, rangeStep_zero_step]
        rfl
      · rw [rangeStep_cons start stop step hlt hz,
          rangeStep_cons (start + d) (stop + d) step (by omega) hz,
          List.map_cons, show start + d + step = start + step + d by omega,
          ih (start + step) stop step d (by omega)]
    · rw [rangeStep_nil start stop step hlt,
        rangeStep_nil (start + d) (stop + d) step (by omega)]
      rfl

theorem rangeStep_shift (start stop step d : Nat) :
    rangeStep (start + d) (stop + d) step = (rangeStep start stop step).map (· + d) :=
  rangeStep_shift_aux (stop - start) start stop step d (Nat.le_refl _)

theorem chunkLengths_base (L : Nat) (h0 : 0 < L) (h1 : L ≤ 1200000) :
    chunkLengths L = [L] := by
  unfold chunkLengths
  rw [rangeStep_cons 0 L 1200000 h0 (by omega),
    rangeStep_nil (0 + 1200000) L 1200000 (by omega), List.map_cons, List.map_nil]
  simp only [sliceLen, List.cons.injEq, and_true]
  omega

theorem chunkLengths_cons (L : Nat) (h : 1200000 < L) :
    chunkLengths L = 1200000 :: chunkLengths (L - 1200000) := by
  unfold chunkLengths
  rw [rangeStep_cons 0 L 1200000 (by omega) (by omega)]
  have hshift : rangeStep (0 + 1200000) ((L - 1200000) + 1200000) 1200000 =
      (rangeStep 0 (L - 1200000) 1200000).map (· + 1200000) :=
    rangeStep_shift 0 (L - 1200000) 1200000 1200000
  rw [show (0:Nat) + 1200000 = 1200000 by omega,
      show (L - 1200000) + 1200000 = L by omega] at hshift
  rw [List.map_cons, hshift, List.map_map]
  have h0 : sliceLen L 0 1200000 = 1200000 := by
    simp only [sliceLen]; omega
  rw [h0]
  refine congrArg (List.cons 1200000) ?_
  apply List.map_congr_left
  intro j _
  simp only [Function.comp_apply, sliceLen]
  omega

theorem chunkLengths_eq (L : Nat) (h : 0 < L) :
    chunkLengths L = List.replicate ((L + 1199999) / 1200000 - 1) 1200000 ++
      [if L % 1200000 = 0 then 1200000 else L % 1200000] := by
  induction L using Nat.strong_induction_on with
  | _ L ih =>
    by_cases hc : L ≤ 1200000
    · rw [chunkLengths_base L h hc]
      have hdiv : (L + 1199999) / 1200000 = 1 := by omega
      rw [hdiv]
      by_cases hm : L % 1200000 = 0
      · have hL : L = 1200000 := by omega
        subst hL
        norm_num
      · have hLm : L % 1200000 = L := by omega
        rw [if_neg hm, hLm]
        simp
    · have hlt : 1200000 < L := by omega
      rw [chunkLengths_cons L hlt,
        ih (L - 1200000) (by omega) (by omega)]
      have hdiv : (L + 1199999) / 1200000 - 1 =
          ((L - 1200000 + 1199999) / 1200000 - 1) + 1 := by omega
      have hmod : (L - 1200000) % 1200000 = L % 1200000 := by omega
      rw [hdiv, hmod, List.replicate_succ, List.cons_append]

/-- C3: for an audio file of length `L > 0` milliseconds, `transcribe_file`
splits it into exactly `ceil(L / 1200000)` chunks; every chunk but the last
has length `1200000`, and the last has length `L % 1200000` when `1200000`
does not divide `L`, and length `1200000` when it does. -/
theorem c3_chunk_boundaries (L : Nat) (h : 0 < L) :
    (chunkLengths L).length = (L + 1199999) / 1200000 ∧
    (∀ x ∈ (chunkLengths L).dropLast, x = 1200000) ∧
    (chunkLengths L).getLast? =
      some (if L % 1200000 = 0 then 1200000 else L % 1200000) := by
  rw [chunkLengths_eq L h]
  refine ⟨?_, ?_, ?_⟩
  · simp [List.length_append, List.length_replicate]
    omega
  · intro x hx
    have hdl : (List.replicate ((L + 1199999) / 1200000 - 1) 1200000 ++
        [if L % 1200000 = 0 then 1200000 else L % 1200000]).dropLast =
        List.replicate ((L + 1199999) / 1200000 - 1) 1200000 := by simp
    rw [hdl] at hx
    exact List.eq_of_mem_replicate hx
  · simp

/-- Witness for C3 at `L = 2500000` (three chunks: 1200000, 1200000, 100000). -/
theorem c3_chunk_boundaries_witness :
    0 < 2500000 ∧
    ((chunkLengths 2500000).length = (2500000 + 1199999) / 1200000 ∧
    (∀ x ∈ (chunkLengths 2500000).dropLast, x = 1200000) ∧
    (chunkLengths 2500000).getLast? =
      some (if 2500000 % 1200000 = 0 then 1200000 else 2500000 % 1200000)) :=
  ⟨by norm_num, c3_chunk_boundaries 2500000 (by norm_num)⟩

/-- C1 counterexample: construction succeeds although the audio-container
argument `"ogg"` is outside the `AudioFileType` domain — `__init__` stores
`audio_file_type` without validating it, so the claim that every
out-of-domain enumerated argument makes construction fail is false. -/
theorem c1_counterexample :
    VideoTranscriptor.init "youtube" "one" none "temp" "ogg" true "whisper"
      "base" "output" "txt" =
      .ok { source_id := none, source_type := .youtube, source_format := .one,
            intermediate_folder := "temp", audio_file_type := "ogg",
            keep_intermediate_files := true, transcription_model := "whisper",
            transcription_quality := "base", output_folder := "output",
            output_format := "txt" } ∧
    "ogg" ∉ audioFileTypeDomain := by
  exact ⟨rfl, by decide⟩

/-- C1 (amended): the constructor validates only the source kind and the
cardinality — an out-of-domain value for either of those two makes
construction fail, and on success the stored source kind and cardinality
belong to their domains — while the audio container, model family, quality
tier and output container are stored exactly as passed, without
validation. -/
theorem c1_enum_validation (st sf : String) (sid : Option String)
    (ifold aft : String) (keep : Bool) (tm tq ofold ofmt : String) :
    (∀ v, VideoTranscriptor.init st sf sid ifold aft keep tm tq ofold ofmt = .ok v →
      v.source_type.value ∈ ["youtube", "drive", "local"] ∧
      v.source_format.value ∈ ["one", "multiple"] ∧
      v.audio_file_type = aft ∧ v.transcription_model = tm ∧
      v.transcription_quality = tq ∧ v.output_format = ofmt) ∧
    (SourceType.ofValue st = none →
      (VideoTranscriptor.init st sf sid ifold aft keep tm tq ofold ofmt).isOk = false) ∧
    (SourceFormat.ofValue sf = none →
      (VideoTranscriptor.init st sf sid ifold aft keep tm tq ofold ofmt).isOk = false) := by
  refine ⟨?_, ?_, ?_⟩
  · intro v hv
    unfold VideoTranscriptor.init at hv
    match hst : SourceType.ofValue st with
    | none => rw [hst] at hv; exact absurd hv (by simp)
    | some stv =>
      match hsf : SourceFormat.ofValue sf with
      | none => rw [hst, hsf] at hv; exact absurd hv (by simp)
      | some sfv =>
        rw [hst, hsf] at hv
        simp only [Except.ok.injEq] at hv
        subst hv
        refine ⟨?_, ?_, rfl, rfl, rfl, rfl⟩
        · cases stv <;> simp [SourceType.value]
        · cases sfv <;> simp [SourceFormat.value]
  · intro hst
    unfold VideoTranscriptor.init
    rw [hst]
    rfl
  · intro hsf
    unfold VideoTranscriptor.init
    match hst : SourceType.ofValue st with
    | none => rfl
    | some stv => rw [hsf]; rfl

/-- Witness for C1 (amended): exercised on a failing source kind, a
failing cardinality, and a successful construction. -/
theorem c1_enum_validation_witness :
    (SourceType.ofValue "nope" = none ∧
      (VideoTranscriptor.init "nope" "one" none "temp" "mp3" true "whisper"
        "base" "output" "txt").isOk = false) ∧
    (SourceFormat.ofValue "bad" = none ∧
      (VideoTranscriptor.init "youtube" "bad" none "temp" "mp3" true "whisper"
        "base" "output" "txt").isOk = false) ∧
    (SourceType.youtube.value ∈ ["youtube", "drive", "local"] ∧
      SourceFormat.one.value ∈ ["one", "multiple"] ∧
      ("mp3" : String) = "mp3" ∧ ("whisper" : String) = "whisper" ∧
      ("base" : String) = "base" ∧ ("txt" : String) = "txt") :=
  ⟨⟨rfl, (c1_enum_validation "nope" "one" none "temp" "mp3" true "whisper"
      "base" "output" "txt").2.1 rfl⟩,
   ⟨rfl, (c1_enum_validation "youtube" "bad" none "temp" "mp3" true "whisper"
      "base" "output" "txt").2.2 rfl⟩,
   (c1_enum_validation "youtube" "one" none "temp" "mp3" true "whisper"
      "base" "output" "txt").1 _ rfl⟩

/-- C2 counterexample: with a valid, non-empty local input directory, a
`PermissionError` raised inside the walk-and-extract loop is an exception
raised during acquisition, yet `process_source` propagates nothing —
`process_local_files` logs it and swallows it — contradicting the claim
that every acquisition exception outside the three path-validation cases
is re-raised. -/
theorem c2_counterexample :
    permDuringWalkWorld.localWorld.pathExists = true ∧
    permDuringWalkWorld.localWorld.pathIsFile = false ∧
    permDuringWalkWorld.localWorld.listEmpty = false ∧
    permDuringWalkWorld.localWorld.walkResult = .error .permission ∧
    process_source_exc .local permDuringWalkWorld = none :=
  ⟨rfl, rfl, rfl, rfl, rfl⟩

theorem process_local_files_m_eq_some (w : LocalWorld) (e : PyExc) :
    process_local_files_m w = some e ↔
      w.pathExists = true ∧ w.pathIsFile = false ∧ w.listEmpty = false ∧
      w.walkResult = .error e ∧ swallowedByLocalHandlers e = false := by
  rcases w with ⟨pe, pf, le, wr⟩
  simp only [process_local_files_m]
  cases pe
  · simp
  · cases pf
    · cases le
      · simp only [Bool.not_true, Bool.false_eq_true, if_false, ite_false]
        cases wr with
        | ok u => simp
        | error e' =>
          cases he : swallowedByLocalHandlers e'
          · simp only [he, Bool.false_eq_true, if_false, ite_false, true_and,
              Option.some.injEq, Except.error.injEq]
            constructor
            · intro h
              subst h
              exact ⟨rfl, he⟩
            · rintro ⟨h, -⟩
              exact h
          · simp only [he, if_true, ite_true, true_and, Except.error.injEq]
            constructor
            · intro h
              exact Option.noConfusion h
            · rintro ⟨rfl, hsw⟩
              rw [he] at hsw
              exact absurd hsw (by simp)
      · simp
    · simp

/-- C2 (amended): `process_source` propagates an exception exactly when
either the source is remote (drive/youtube) and its branch raises, or the
source is local, the input path is an existing non-empty directory, and
the walk-and-extract loop raises an exception outside the three swallowed
classes (`FileNotFoundError`, `IsADirectoryError`, `PermissionError`);
path-validation failures and swallowed-class exceptions are logged
without propagating. -/
theorem c2_acquisition_exceptions (stype : SourceType) (w : AcqWorld) (e : PyExc) :
    process_source_exc stype w = some e ↔
      (stype ≠ .local ∧ w.remoteResult = .error e) ∨
      (stype = .local ∧ w.localWorld.pathExists = true ∧
        w.localWorld.pathIsFile = false ∧ w.localWorld.listEmpty = false ∧
        w.localWorld.walkResult = .error e ∧
        swallowedByLocalHandlers e = false) := by
  cases stype
  · -- youtube
    simp only [process_source_exc]
    cases hr : w.remoteResult <;> simp [hr]
  · -- drive
    simp only [process_source_exc]
    cases hr : w.remoteResult <;> simp [hr]
  · -- local
    simp only [process_source_exc]
    rw [process_local_files_m_eq_some]
    simp

theorem foldl_erase_self (l : List String) :
    l.foldl (fun remaining f => remaining.erase f) l = [] := by
  induction l with
  | nil => rfl
  | cons a t ih =>
    rw [List.foldl_cons, List.erase_cons_head]
    exact ih

/-- C4: when the keep-intermediate flag is false `clean_up` removes every
file of the intermediate directory, and when it is true it removes
none. -/
theorem c4_clean_up (files : List String) :
    clean_up false files = [] ∧ clean_up true files = files := by
  constructor
  · unfold clean_up
    simp only [Bool.not_false, if_true, ite_true]
    exact foldl_erase_self files
  · rfl

/-- C6: the local walk selects a file for audio extraction exactly when it
occurs in the walked tree and its name ends with `.mp4`, `.avi` or
`.mov`; no other file is passed to `extract_local_audio`. -/
theorem c6_local_walk_selection (t : DirTree) (f : String) :
    f ∈ selectedVideoFiles t ↔
      f ∈ walkFiles t ∧
        (strEndsWith f ".mp4" = true ∨ strEndsWith f ".avi" = true ∨
          strEndsWith f ".mov" = true) := by
  simp [selectedVideoFiles, List.mem_filter, hasVideoExt, Bool.or_eq_true, or_assoc]

theorem liveStates_ne_nil (live : List String) (evs : List FsEv) :
    liveStates live evs ≠ [] := by
  cases evs <;> simp [liveStates]

theorem runEvs_cons (live : List String) (ev : FsEv) (evs : List FsEv) :
    runEvs live (ev :: evs) = runEvs (stepEv live ev) evs := rfl

theorem runEvs_append (live : List String) (xs ys : List FsEv) :
    runEvs live (xs ++ ys) = runEvs (runEvs live xs) ys := by
  simp [runEvs, List.foldl_append]

theorem liveStates_append (live : List String) (xs ys : List FsEv) :
    liveStates live (xs ++ ys) =
      (liveStates live xs).dropLast ++ liveStates (runEvs live xs) ys := by
  induction xs generalizing live with
  | nil => rfl
  | cons x xs ih =>
    rw [List.cons_append]
    show live :: liveStates (stepEv live x) (xs ++ ys) = _
    rw [ih (stepEv live x)]
    rw [show liveStates live (x :: xs) = live :: liveStates (stepEv live x) xs from rfl,
      List.dropLast_cons_of_ne_nil (liveStates_ne_nil _ _), List.cons_append,
      runEvs_cons]

theorem runEvs_chunkEvents (folder stem : String) (i : Nat) (t : String) :
    runEvs [] (chunkEvents folder stem i t) = [] := by
  simp [runEvs, chunkEvents, stepEv, List.erase_cons_head]

theorem runEvs_transcribeEventsGo (folder stem : String) (texts : List String) :
    ∀ i, runEvs [] (transcribeEventsGo folder stem i texts) = [] := by
  induction texts with
  | nil => intro i; rfl
  | cons t ts ih =>
    intro i
    rw [transcribeEventsGo, runEvs_append, runEvs_chunkEvents]
    exact ih (i + 1)

theorem liveStates_chunkEvents (folder stem : String) (i : Nat) (t : String) :
    liveStates [] (chunkEvents folder stem i t) =
      [[], [tempChunkName folder stem i], [tempChunkName folder stem i],
       [tempChunkName folder stem i], []] := by
  simp [liveStates, chunkEvents, stepEv, List.erase_cons_head]

theorem liveStates_transcribeEventsGo_mem (folder stem : String) :
    ∀ (texts : List String) (i : Nat),
      ∀ s ∈ liveStates [] (transcribeEventsGo folder stem i texts),
        s = [] ∨ ∃ j, i ≤ j ∧ j < i + texts.length ∧
          s = [tempChunkName folder stem j] := by
  intro texts
  induction texts with
  | nil =>
    intro i s hs
    simp [transcribeEventsGo, liveStates] at hs
    exact Or.inl hs
  | cons t ts ih =>
    intro i s hs
    rw [transcribeEventsGo, liveStates_append, runEvs_chunkEvents,
      liveStates_chunkEvents] at hs
    rw [show ([[], [tempChunkName folder stem i], [tempChunkName folder stem i],
        [tempChunkName folder stem i], []] : List (List String)).dropLast =
        [[], [tempChunkName folder stem i], [tempChunkName folder stem i],
        [tempChunkName folder stem i]] from rfl] at hs
    have hlen : i < i + (t :: ts).length := by
      simp only [List.length_cons]
      omega
    rcases List.mem_append.mp hs with hmem | hmem
    · rcases List.mem_cons.mp hmem with h | hmem
      · exact Or.inl h
      rcases List.mem_cons.mp hmem with h | hmem
      · exact Or.inr ⟨i, Nat.le_refl i, hlen, h⟩
      rcases List.mem_cons.mp hmem with h | hmem
      · exact Or.inr ⟨i, Nat.le_refl i, hlen, h⟩
      rcases List.mem_cons.mp hmem with h | hmem
      · exact Or.inr ⟨i, Nat.le_refl i, hlen, h⟩
      · exact absurd hmem (List.not_mem_nil s)
    · rcases ih (i + 1) s hmem with h | ⟨j, hj1, hj2, hj3⟩
      · exact Or.inl h
      · refine Or.inr ⟨j, by omega, ?_, hj3⟩
        simp only [List.length_cons] at hj2 ⊢
        omega

/-- C7: during `transcribe_file`'s chunk loop, at most one temporary chunk
file is ever live — at any point of the trace the live set is empty or the
single temporary file of some chunk — and after each completed chunk step
(any prefix of the chunk list having been processed) no temporary chunk
file remains: each chunk file is created, used and deleted within its own
step, before the next chunk is processed. -/
theorem c7_chunk_file_lifecycle (folder stem : String) (texts : List String) :
    (∀ n : Nat, runEvs [] (transcribeEvents folder stem (texts.take n)) = []) ∧
    (∀ s ∈ liveStates [] (transcribeEvents folder stem texts),
      s = [] ∨ ∃ i, i < texts.length ∧ s = [tempChunkName folder stem i]) := by
  constructor
  · intro n
    exact runEvs_transcribeEventsGo folder stem (texts.take n) 0
  · intro s hs
    rcases liveStates_transcribeEventsGo_mem folder stem texts 0 s hs with
      h | ⟨j, -, hj2, hj3⟩
    · exact Or.inl h
    · exact Or.inr ⟨j, by omega, hj3⟩

/-- Witness for C7 at a concrete two-chunk trace: after the first chunk's
step no temporary file remains, and the mid-step state holding the first
chunk's file is one of the allowed live sets. -/
theorem c7_chunk_file_lifecycle_witness :
    runEvs [] (transcribeEvents "temp" "a" (["t1", "t2"].take 1)) = [] ∧
    [tempChunkName "temp" "a" 0] ∈
      liveStates [] (transcribeEvents "temp" "a" ["t1", "t2"]) ∧
    ([tempChunkName "temp" "a" 0] = [] ∨
      ∃ i, i < (["t1", "t2"] : List String).length ∧
        [tempChunkName "temp" "a" 0] = [tempChunkName "temp" "a" i]) :=
  ⟨(c7_chunk_file_lifecycle "temp" "a" ["t1", "t2"]).1 1,
   by decide,
   (c7_chunk_file_lifecycle "temp" "a" ["t1", "t2"]).2 _ (by decide)⟩

theorem foldl_appendEv_init (evs : List FsEv) :
    ∀ s, evs.foldl appendEv s = s ++ writtenText evs := by
  induction evs with
  | nil =>
    intro s
    simp [writtenText]
  | cons ev evs ih =>
    intro s
    rw [List.foldl_cons, ih (appendEv s ev),
      show writtenText (ev :: evs) = List.foldl appendEv (appendEv "" ev) evs from rfl,
      ih (appendEv "" ev)]
    cases ev <;> simp [appendEv, String.append_assoc]

theorem writtenText_append (xs ys : List FsEv) :
    writtenText (xs ++ ys) = writtenText xs ++ writtenText ys := by
  rw [writtenText, List.foldl_append, foldl_appendEv_init]
  rfl

theorem writtenText_chunkEvents (folder stem : String) (i : Nat) (t : String) :
    writtenText (chunkEvents folder stem i t) = t ++ "\n" := by
  simp [writtenText, chunkEvents, appendEv]

theorem string_foldl_append_init (l : List String) :
    ∀ s : String, l.foldl (· ++ ·) s = s ++ String.join l := by
  induction l with
  | nil =>
    intro s
    simp [String.join]
  | cons x xs ih =>
    intro s
    rw [List.foldl_cons, ih (s ++ x),
      show String.join (x :: xs) = List.foldl (· ++ ·) ("" ++ x) xs from rfl,
      ih ("" ++ x)]
    simp [String.append_assoc]

theorem writtenText_transcribeEventsGo (folder stem : String) (texts : List String) :
    ∀ i, writtenText (transcribeEventsGo folder stem i texts) =
      String.join (texts.map (fun t => t ++ "\n")) := by
  induction texts with
  | nil => intro i; rfl
  | cons t ts ih =>
    intro i
    rw [transcribeEventsGo, writtenText_append, writtenText_chunkEvents, ih (i + 1),
      List.map_cons,
      show String.join ((t ++ "\n") :: ts.map (fun t => t ++ "\n")) =
        List.foldl (· ++ ·) ("" ++ (t ++ "\n")) (ts.map (fun t => t ++ "\n")) from rfl,
      string_foldl_append_init]
    simp

theorem setFile_map_fst (outputs : List (String × String)) (name content : String)
    (h : name ∉ outputs.map Prod.fst) :
    (setFile outputs name content).map Prod.fst = outputs.map Prod.fst ++ [name] := by
  unfold setFile
  rw [List.filter_eq_self.mpr, List.map_append, List.map_cons, List.map_nil]
  intro p hp
  simp only [decide_eq_true_eq]
  intro hpn
  exact h (hpn ▸ List.mem_map_of_mem Prod.fst hp)

theorem transcribe_files_names (folder ofmt : String) (recognize : String → List String) :
    ∀ (files : List String) (acc : List (String × String)),
      (files.map (fun f => outputFileName (pyStem f) ofmt)).Nodup →
      (∀ f ∈ files, outputFileName (pyStem f) ofmt ∉ acc.map Prod.fst) →
      (files.foldl (fun a f => transcribe_file_m folder ofmt recognize a f) acc).map Prod.fst =
        acc.map Prod.fst ++ files.map (fun f => outputFileName (pyStem f) ofmt) := by
  intro files
  induction files with
  | nil =>
    intro acc _ _
    simp
  | cons f fs ih =>
    intro acc hnd hdisj
    rw [List.foldl_cons]
    have hstep : (transcribe_file_m folder ofmt recognize acc f).map Prod.fst =
        acc.map Prod.fst ++ [outputFileName (pyStem f) ofmt] :=
      setFile_map_fst acc _ _ (hdisj f (List.mem_cons_self f fs))
    rw [List.map_cons] at hnd
    have hnd' := hnd.of_cons
    have hne := List.nodup_cons.mp hnd |>.1
    rw [ih (transcribe_file_m folder ofmt recognize acc f) hnd' ?_, hstep,
      List.map_cons, List.append_assoc, List.singleton_append]
    intro g hg
    rw [hstep, List.mem_append]
    rintro (hin | hin)
    · exact hdisj g (List.mem_cons_of_mem f hg) hin
    · rw [List.mem_singleton] at hin
      exact hne (hin ▸ List.mem_map_of_mem (fun f => outputFileName (pyStem f) ofmt) hg)

/-- C5: the transcript a chunk loop writes is exactly the chunk texts in
chunk order, each followed by a newline; and transcribing the files of the
intermediate directory (whose transcript names do not collide) produces
one transcript file per intermediate audio file, named after the file's
stem with the output-format extension. -/
theorem c5_transcript_accumulation (folder stem ofmt : String)
    (texts : List String) (files : List String) (recognize : String → List String)
    (h : (files.map (fun f => outputFileName (pyStem f) ofmt)).Nodup) :
    writtenText (transcribeEvents folder stem texts) =
      String.join (texts.map (fun t => t ++ "\n")) ∧
    (files.foldl (fun a f => transcribe_file_m folder ofmt recognize a f) []).map Prod.fst =
      files.map (fun f => outputFileName (pyStem f) ofmt) := by
  constructor
  · exact writtenText_transcribeEventsGo folder stem texts 0
  · rw [transcribe_files_names folder ofmt recognize files [] h (by simp)]
    rfl

/-- Witness for C5 at concrete inputs: two chunks of text and two files. -/
theorem c5_transcript_accumulation_witness :
    (["a.mp3", "b.mp3"].map (fun f => outputFileName (pyStem f) "txt")).Nodup ∧
    (writtenText (transcribeEvents "temp" "a" ["hello", "world"]) =
      String.join (["hello", "world"].map (fun t => t ++ "\n")) ∧
    ((["a.mp3", "b.mp3"].foldl
        (fun a f => transcribe_file_m "temp" "txt" (fun _ => ["x"]) a f) []).map Prod.fst =
      ["a.mp3", "b.mp3"].map (fun f => outputFileName (pyStem f) "txt"))) :=
  ⟨by decide,
   c5_transcript_accumulation "temp" "a" "txt" ["hello", "world"]
     ["a.mp3", "b.mp3"] (fun _ => ["x"]) (by decide)⟩

/-- C10: `transcribe_file` opens the transcript in overwrite mode: whatever
the output directory previously associated with the transcript's name, after
the call the name maps exactly to the current run's accumulated chunk
texts, and no other contents remain under that name. -/
theorem c10_transcript_overwrite (folder ofmt : String)
    (recognize : String → List String) (outputs : List (String × String))
    (file : String) :
    lookupFile (transcribe_file_m folder ofmt recognize outputs file)
        (outputFileName (pyStem file) ofmt) =
      some (writtenText (transcribeEvents folder (pyStem file) (recognize file))) ∧
    ∀ c, (outputFileName (pyStem file) ofmt, c) ∈
        transcribe_file_m folder ofmt recognize outputs file →
      c = writtenText (transcribeEvents folder (pyStem file) (recognize file)) := by
  constructor
  · unfold transcribe_file_m setFile lookupFile
    rw [List.find?_append]
    have hnone : (outputs.filter
        (fun p => decide (p.1 ≠ outputFileName (pyStem file) ofmt))).find?
        (fun p => decide (p.1 = outputFileName (pyStem file) ofmt)) = none := by
      rw [List.find?_eq_none]
      intro x hx
      have := (List.mem_filter.mp hx).2
      simp only [decide_eq_true_eq] at this ⊢
      exact this
    rw [hnone]
    simp [List.find?]
  · intro c hc
    unfold transcribe_file_m setFile at hc
    rcases List.mem_append.mp hc with hin | hin
    · have := (List.mem_filter.mp hin).2
      simp at this
    · rw [List.mem_singleton] at hin
      exact congrArg Prod.snd hin

/-- Witness for C10 at a concrete input: the output directory already
holds `a.txt` with stale contents, and transcribing `a.mp3` replaces them
with the current run's single chunk text. -/
theorem c10_transcript_overwrite_witness :
    lookupFile (transcribe_file_m "temp" "txt" (fun _ => ["new"])
        [("a.txt", "OLD")] "a.mp3") (outputFileName (pyStem "a.mp3") "txt") =
      some (writtenText (transcribeEvents "temp" (pyStem "a.mp3")
        ((fun _ : String => ["new"]) "a.mp3"))) ∧
    ((outputFileName (pyStem "a.mp3") "txt",
        writtenText (transcribeEvents "temp" (pyStem "a.mp3")
          ((fun _ : String => ["new"]) "a.mp3"))) ∈
      transcribe_file_m "temp" "txt" (fun _ => ["new"]) [("a.txt", "OLD")] "a.mp3") ∧
    writtenText (transcribeEvents "temp" (pyStem "a.mp3")
        ((fun _ : String => ["new"]) "a.mp3")) =
      writtenText (transcribeEvents "temp" (pyStem "a.mp3")
        ((fun _ : String => ["new"]) "a.mp3")) :=
  ⟨(c10_transcript_overwrite "temp" "txt" (fun _ => ["new"])
      [("a.txt", "OLD")] "a.mp3").1,
   by decide,
   (c10_transcript_overwrite "temp" "txt" (fun _ => ["new"])
      [("a.txt", "OLD")] "a.mp3").2 _ (by decide)⟩

/-- C9: when the intermediate directory is empty, `transcribe_audio` logs
an error and returns normally — loading no speech model, writing no
transcript, and raising no exception. -/
theorem c9_empty_intermediate (folder ofmt quality : String)
    (recognize : String → List String) (st : PipeState)
    (h : st.intermediate = []) :
    transcribe_audio_m folder ofmt quality recognize st =
      .ok { intermediate := st.intermediate
            outputs := st.outputs
            loadedModels := st.loadedModels
            log := st.log ++ ["No files found in the intermediate folder."] } := by
  unfold transcribe_audio_m
  rw [h]
  rfl

/-- Witness for C9: an empty intermediate directory next to a non-empty
output directory. -/
theorem c9_empty_intermediate_witness :
    (PipeState.mk [] [("old.txt", "x")] [] []).intermediate = [] ∧
    transcribe_audio_m "temp" "txt" "base" (fun _ => [])
        (PipeState.mk [] [("old.txt", "x")] [] []) =
      .ok (PipeState.mk [] [("old.txt", "x")] []
        ["No files found in the intermediate folder."]) :=
  ⟨rfl, c9_empty_intermediate "temp" "txt" "base" (fun _ => [])
    (PipeState.mk [] [("old.txt", "x")] [] []) rfl⟩

/-- C8: when acquisition returns normally (and deposits `files`),
`process` executes acquisition, then transcription of exactly the files
then present in the intermediate directory, then cleanup, in that order:
the final state shows transcription consumed the post-acquisition
intermediate directory, cleanup ran on the post-transcription state, and
the log records the phase markers in the fixed order. -/
theorem c8_phase_order (files : List String) (folder ofmt quality : String)
    (recognize : String → List String) (keep : Bool) (st : PipeState)
    (hne : st.intermediate ++ files ≠ []) :
    process_m (.ok files) folder ofmt quality recognize keep st =
      .ok { intermediate := clean_up keep (st.intermediate ++ files)
            outputs := (st.intermediate ++ files).foldl
              (fun acc f => transcribe_file_m folder ofmt recognize acc f) st.outputs
            loadedModels := st.loadedModels ++ [quality]
            log := st.log ++ ["Process started.", "Processing source...",
              "Source processing completed.", "Transcribing audio...",
              "Audio transcription completed.", "Process completed."] } := by
  have hne' : (st.intermediate ++ files).isEmpty = false := by
    cases h : st.intermediate ++ files with
    | nil => exact absurd h hne
    | cons a t => rfl
  unfold process_m process_source_phase transcribe_audio_m clean_up_phase
  simp only [hne', Bool.false_eq_true, if_false, ite_false, Except.ok.injEq]
  simp [List.append_assoc]

/-- Witness for C8: one acquired file, keep-intermediate off. -/
theorem c8_phase_order_witness :
    (PipeState.mk [] [] [] []).intermediate ++ ["v"] ≠ [] ∧
    process_m (.ok ["v"]) "temp" "txt" "base" (fun _ => ["t"]) false
        (PipeState.mk [] [] [] []) =
      .ok { intermediate := clean_up false ((PipeState.mk [] [] [] []).intermediate ++ ["v"])
            outputs := (((PipeState.mk [] [] [] []).intermediate ++ ["v"]).foldl
              (fun acc f => transcribe_file_m "temp" "txt" (fun _ => ["t"]) acc f)
              (PipeState.mk [] [] [] []).outputs)
            loadedModels := (PipeState.mk [] [] [] []).loadedModels ++ ["base"]
            log := (PipeState.mk [] [] [] []).log ++ ["Process started.",
              "Processing source...", "Source processing completed.",
              "Transcribing audio...", "Audio transcription completed.",
              "Process completed."] } :=
  ⟨by simp, c8_phase_order ["v"] "temp" "txt" "base" (fun _ => ["t"]) false
    (PipeState.mk [] [] [] []) (by simp)⟩

end Transcripcion
